import Mathlib

/-!
Shallow embedding of the Jeopardy game engine of `jeopardy.py`
(classes `JeopardyGame` and `JeopardyBot`).

Conventions of the embedding:
* The mutable dictionary `JeopardyGame.state` becomes the structure `GameState`;
  each handler method of `JeopardyBot` becomes a pure function
  `GameState → GameState × Outcome`, where the outcome records which message
  branch of the source was taken.
* Python `dict` values keyed by user id (`scores`) become insertion-ordered
  association lists; `str(user_id)` is the identity because user ids are
  modelled as strings throughout.
* Sources of nondeterminism are injected as arguments:
  `random.random() < 0.1` becomes the argument `ddRoll`, `time.time()` becomes
  the argument `now : Int`, the randomly sampled board of `setup_board` becomes
  the arguments `newCats`/`newBoard`, the sampled final question becomes
  `finalQ`, and the latest direct-message reply of each user fetched by
  `get_last_message` becomes the function `replies : String → String`.
* The daemon thread armed by `post_question` is modelled as the separate
  transition `buzz_timeout`, carrying the question object its closure captured.
* In `handle_answer`, the source evaluates
  `self.game.state['current_question']['answers']` after the turn and time
  guards; when `current_question` is `None` this raises an uncaught
  `TypeError` before any state is mutated, modelled by the outcome
  `AnswerOutcome.crashed` with the state unchanged.
* `scores[uid] += w` in `start_final_jeopardy` assumes the key is present
  (Python raises `KeyError` otherwise); it is modelled by `supdate`, which
  leaves the list unchanged when the key is absent, and theorems that rely on
  the update carry the presence hypothesis `smem` (which `handle_register`
  guarantees for every registered user, since registration requires a score
  of at least 1 and scores exist only for users that have scored).
-/

/-- A question record of the corpus `jeopardy_questions.json`: fields
`category_id`, `points` (read through `int(...)` in the source), `question`
and `answers`. Python compares these dictionaries by value, so equality is
structural. -/
structure Question where
  category_id : String
  points : Int
  question : String
  answers : List String
deriving DecidableEq

/-- The `JeopardyGame.state` dictionary, one field per key. -/
structure GameState where
  running : Bool
  round : Int
  scores : List (String × Int)
  final_registered : List String
  final_answers : List (String × String)
  answered_users : List String
  daily_doubles : List (String × Int)
  daily_double_used : List (String × Int)
  buzzed_in : Option String
  buzzed_in_time : Int
  current_question : Option Question
  current_chooser : Option String
  categories : List String
  board : List Question
  buzzed : List String
  buzz_open : Bool
deriving DecidableEq

/-- The state built by `JeopardyGame.__init__`. -/
def initial_state : GameState :=
  { running := false
    round := 1
    scores := []
    final_registered := []
    final_answers := []
    answered_users := []
    daily_doubles := []
    daily_double_used := []
    buzzed_in := none
    buzzed_in_time := 0
    current_question := none
    current_chooser := none
    categories := []
    board := []
    buzzed := []
    buzz_open := false }

/-- `scores.get(uid, 0)`: value of the first entry with the given key,
defaulting to 0. -/
def sget : List (String × Int) → String → Int
  | [], _ => 0
  | p :: ps, uid => if p.1 = uid then p.2 else sget ps uid

/-- `uid in scores`: key-membership test of the dictionary. -/
def smem : List (String × Int) → String → Bool
  | [], _ => false
  | p :: ps, uid => if p.1 = uid then true else smem ps uid

/-- `scores[uid] += d` on a present key: update of the first entry with the
given key. When the key is absent Python raises `KeyError`; here the list is
returned unchanged and callers track presence through `smem`. -/
def supdate : List (String × Int) → String → Int → List (String × Int)
  | [], _, _ => []
  | p :: ps, uid, d => if p.1 = uid then (p.1, p.2 + d) :: ps else p :: supdate ps uid d

/-- `scores.setdefault(uid, 0)`: inserts the entry at the end (Python dicts
are insertion ordered) when the key is absent. -/
def ssetdefault (scores : List (String × Int)) (uid : String) : List (String × Int) :=
  if smem scores uid then scores else scores ++ [(uid, 0)]

/-- ASCII lowering of one character, as Python `str.lower()` acts on the
ASCII command text used here. -/
def lowerChar (c : Char) : Char :=
  if 'A' ≤ c ∧ c ≤ 'Z' then Char.ofNat (c.toNat + 32) else c

/-- Python `str.lower()` (ASCII fragment, structurally recursive so that the
kernel can evaluate it; the messages of this program are ASCII). -/
def strLower (s : String) : String := String.mk (s.data.map lowerChar)

/-- Python `s[n:]` on strings. -/
def strDrop (s : String) (n : Nat) : String := String.mk (s.data.drop n)

/-- Python `s.startswith(pre)`. -/
def strStartsWith (s pre : String) : Bool := pre.data.isPrefixOf s.data

/-- Helper of `splitWs`, accumulating the current word reversed. -/
def splitWsAux : List Char → List Char → List String
  | [], acc => if acc.isEmpty then [] else [String.mk acc.reverse]
  | c :: cs, acc =>
    if c = ' ' then
      if acc.isEmpty then splitWsAux cs []
      else String.mk acc.reverse :: splitWsAux cs []
    else splitWsAux cs (c :: acc)

/-- Python `str.split()` with no argument: split on whitespace runs, dropping
empty pieces (the messages here only ever contain spaces). -/
def splitWs (msg : String) : List String := splitWsAux msg.data []

/-- Digit value of an ASCII digit character. -/
def digitVal (c : Char) : Option Nat :=
  if '0' ≤ c ∧ c ≤ '9' then some (c.toNat - 48) else none

/-- Decimal value of a nonempty all-digit character list, `none` otherwise. -/
def natFromChars : List Char → Option Nat
  | [] => none
  | cs => cs.foldl (fun acc c => match acc, digitVal c with
      | some n, some d => some (n * 10 + d)
      | _, _ => none) (some 0)

/-- Python `int(s)` on the token strings this program parses: an optional
leading minus sign followed by decimal digits; `none` models the
`ValueError` raised on anything else. -/
def strToInt (s : String) : Option Int :=
  match s.data with
  | '-' :: rest => (natFromChars rest).map fun n => -(n : Int)
  | l => (natFromChars l).map fun n => (n : Int)

/-- `" ".join(ws)`. -/
def joinWords : List String → String
  | [] => ""
  | [w] => w
  | w :: ws => w ++ " " ++ joinWords ws

/-- Outcomes of `handle_start_jeopardy`. -/
inductive StartOutcome where
  | started
  | alreadyRunning
deriving DecidableEq

/-- Outcomes of `handle_choose_question`. -/
inductive ChooseOutcome where
  | notRunning
  | usage
  | invalidPoints
  | invalidCategory
  | dailyDouble
  | posted
  | noTile
deriving DecidableEq

/-- Outcomes of `handle_buzz`. -/
inductive BuzzOutcome where
  | locked
  | rejected
deriving DecidableEq

/-- Outcomes of `handle_answer`. `crashed` marks the uncaught `TypeError` on
`None['answers']` described in the module docstring. -/
inductive AnswerOutcome where
  | notYourTurn
  | timedOut
  | correct
  | incorrect
  | crashed
deriving DecidableEq

/-- Outcomes of `handle_daily_double`. -/
inductive DDOutcome where
  | noActive
  | usage
  | invalidWager
  | correct
  | incorrect
deriving DecidableEq

/-- Outcomes of `handle_register`. -/
inductive RegisterOutcome where
  | needScore
  | registered
  | alreadyRegistered
deriving DecidableEq

/-- `JeopardyBot.handle_start_jeopardy` (lines 323-341). The sampling done by
`setup_board` is injected as `newCats`/`newBoard`. Note which keys of the
state dictionary are reset: `daily_doubles` is reset but `daily_double_used`,
`buzzed` and `buzz_open` are not. -/
def handle_start_jeopardy (newCats : List String) (newBoard : List Question)
    (s : GameState) : GameState × StartOutcome :=
  if s.running = false then
    ({ s with
        running := true
        round := 1
        scores := []
        final_registered := []
        final_answers := []
        answered_users := []
        daily_doubles := []
        buzzed_in := none
        buzzed_in_time := 0
        current_question := none
        current_chooser := none
        categories := newCats
        board := newBoard }, .started)
  else
    (s, .alreadyRunning)

/-- `JeopardyGame.post_question` (lines 116-124): store the question, clear
the buzz list, open the buzz window. The daemon timeout thread it starts is
the separate transition `buzz_timeout`. -/
def post_question (q : Question) (s : GameState) : GameState :=
  { s with current_question := some q, buzzed := [], buzz_open := true }

/-- The closure `buzz_timeout` inside `post_question` (lines 126-141), fired
after 10 seconds with the posted question `q` captured: if nobody buzzed in
and the window is still open, close it, remove the tile from the board
(`list.remove`, first occurrence, guarded by membership) and clear the active
question. -/
def buzz_timeout (q : Question) (s : GameState) : GameState :=
  if s.buzzed_in = none ∧ s.buzz_open = true then
    { s with buzz_open := false, board := s.board.erase q, current_question := none }
  else
    s

/-- `JeopardyBot.handle_choose_question` (lines 343-374). `command` is the
lowercased token list and `command2` the case-preserving one, both without the
leading `!`; `ddRoll` injects `random.random() < 0.1`. -/
def handle_choose_question (command command2 : List String) (user_id : String)
    (ddRoll : Bool) (s : GameState) : GameState × ChooseOutcome :=
  if s.running = false then (s, .notRunning)
  else if command.length < 3 then (s, .usage)
  else
    match strToInt (command.getD 1 "") with
    | none => (s, .invalidPoints)
    | some points =>
      let category := joinWords (command2.drop 2)
      if category ∉ s.categories then (s, .invalidCategory)
      else
        match s.board.find? fun q => q.category_id == category && q.points == points with
        | some q =>
          if ddRoll = true ∧ (category, points) ∉ s.daily_double_used then
            ({ s with
                daily_double_used := (category, points) :: s.daily_double_used
                current_question := some q }, .dailyDouble)
          else
            (post_question q s, .posted)
        | none => (s, .noTile)

/-- `JeopardyBot.handle_buzz` (lines 376-387): accepted exactly when nobody
has buzzed in and a question object is stored (a question dictionary is always
truthy); records the caller and `time.time()` (injected as `now`). -/
def handle_buzz (user_id : String) (now : Int) (s : GameState) :
    GameState × BuzzOutcome :=
  if s.buzzed_in = none ∧ s.current_question ≠ none then
    ({ s with buzzed_in := some user_id, buzzed_in_time := now }, .locked)
  else
    (s, .rejected)

/-- `JeopardyBot.handle_answer` (lines 389-418). `command2` is the
case-preserving token list including the verb; the answer text is
`" ".join(command2[1:]).lower()`. -/
def handle_answer (command2 : List String) (user_id : String) (now : Int)
    (s : GameState) : GameState × AnswerOutcome :=
  if s.buzzed_in ≠ some user_id then (s, .notYourTurn)
  else if now - s.buzzed_in_time > 20 then
    ({ s with buzzed_in := none }, .timedOut)
  else
    match s.current_question with
    | none => (s, .crashed)
    | some q =>
      let answer_text := strLower (joinWords (command2.drop 1))
      let correct_answers := q.answers.map strLower
      let points := q.points
      let scores1 := ssetdefault s.scores user_id
      if answer_text ∈ correct_answers then
        ({ s with
            scores := supdate scores1 user_id points
            current_chooser := some user_id
            current_question := none }, .correct)
      else
        ({ s with
            scores := supdate scores1 user_id (-points)
            buzzed_in := none }, .incorrect)

/-- `JeopardyBot.handle_daily_double` (lines 420-452). `parts` is the token
list the dispatcher passes, which is `command2` including the leading verb
token; the source parses `int(parts[0])` as the wager and joins `parts[1:]`
as the answer text. -/
def handle_daily_double (parts : List String) (user_id : String)
    (s : GameState) : GameState × DDOutcome :=
  match s.current_question with
  | none => (s, .noActive)
  | some q =>
    if parts.length < 2 then (s, .usage)
    else
      match strToInt (parts.getD 0 "") with
      | none => (s, .invalidWager)
      | some wager0 =>
        let score := sget s.scores user_id
        let cap : Int := if s.round = 1 then 1000 else 2000
        let wager := max 1 (min wager0 (max score cap))
        let answer_text := strLower (joinWords (parts.drop 1))
        let correct_answers := q.answers.map strLower
        let scores1 := ssetdefault s.scores user_id
        if answer_text ∈ correct_answers then
          ({ s with
              scores := supdate scores1 user_id wager
              current_question := none }, .correct)
        else
          ({ s with
              scores := supdate scores1 user_id (-wager)
              current_question := none }, .incorrect)

/-- `JeopardyBot.handle_register` (lines 460-470): requires a score of at
least 1 and appends the user once to `final_registered`. -/
def handle_register (user_id : String) (s : GameState) :
    GameState × RegisterOutcome :=
  if sget s.scores user_id < 1 then (s, .needScore)
  else if user_id ∉ s.final_registered then
    ({ s with final_registered := s.final_registered ++ [user_id] }, .registered)
  else
    (s, .alreadyRegistered)

/-- Stable descending insertion used to model
`sorted(scores.items(), key=lambda x: x[1], reverse=True)`: the new element
passes every element with a strictly larger score and lands before the first
element whose score is at most its own, so equal scores keep their dictionary
(insertion) order. -/
def insertScoreDesc (x : String × Int) : List (String × Int) → List (String × Int)
  | [] => [x]
  | y :: ys => if y.2 > x.2 then y :: insertScoreDesc x ys else x :: y :: ys

/-- `sorted(scores.items(), key=lambda x: x[1], reverse=True)` (lines 456
and 528): stable sort by score, descending. -/
def sortScoresDesc (l : List (String × Int)) : List (String × Int) :=
  l.foldr insertScoreDesc []

/-- Stable ascending insertion on the point value, used to model
`sorted(board[cat], key=lambda x: x[0])` in `display_board`. -/
def insertPtAsc (x : Int × Bool) : List (Int × Bool) → List (Int × Bool)
  | [] => [x]
  | y :: ys => if y.1 < x.1 then y :: insertPtAsc x ys else x :: y :: ys

/-- `sorted(l, key=lambda x: x[0])`: stable ascending sort on the first
component. -/
def sortPtsAsc (l : List (Int × Bool)) : List (Int × Bool) :=
  l.foldr insertPtAsc []

/-- The content of `JeopardyGame.display_board` (lines 98-114) before string
formatting: for each chosen category, the `(points, used)` marks of every
catalog question of that category in ascending point order, where
`used = q not in self.state['board']`; a used tile is printed crossed out and
an unused one as an available dollar amount. -/
def display_marks (questions : List Question) (s : GameState) :
    List (String × List (Int × Bool)) :=
  s.categories.map fun cat =>
    (cat,
      sortPtsAsc ((questions.filter fun q => q.category_id == cat).map
        fun q => (q.points, decide (q ∉ s.board))))

/-- The reply-acceptance chain of `start_final_jeopardy` (lines 499-512):
the latest direct message must start with `!finaljeopardy`, split into at
least three tokens, carry an integer second token, and that wager must be
positive; every `continue` of the source becomes `none`. On success it
returns the wager together with the lowercased joined answer text. -/
def finalParse (msg : String) : Option (Int × String) :=
  if strStartsWith msg "!finaljeopardy" = true then
    let parts := splitWs msg
    if parts.length < 3 then none
    else
      match strToInt (parts.getD 1 "") with
      | none => none
      | some w =>
        if w ≤ 0 then none
        else some (w, strLower (joinWords (parts.drop 2)))
  else none

/-- The body of the scoring loop of `start_final_jeopardy` (lines 496-526)
for one registered user: a rejected reply leaves the ledger alone; an
accepted wager is clamped down to the user's current score when it exceeds
it, then credited or debited depending on the answer. -/
def processFinalUser (finalQ : Question) (replies : String → String)
    (scores : List (String × Int)) (uid : String) : List (String × Int) :=
  match finalParse (replies uid) with
  | none => scores
  | some (w, answer_text) =>
    let user_score := sget scores uid
    let wager := if w > user_score then user_score else w
    if answer_text ∈ finalQ.answers.map strLower then
      supdate scores uid wager
    else
      supdate scores uid (-wager)

/-- Outcome of `start_final_jeopardy`: either nobody registered (the function
returns early, before choosing a question and before touching `running`), or
the round ran and the published leaderboard is carried in the outcome. -/
inductive FinalOutcome where
  | noRegistrants
  | done (leaderboard : List (String × Int))
deriving DecidableEq

/-- `JeopardyBot.start_final_jeopardy` (lines 472-533). The sampled final
question is injected as `finalQ` and the latest direct-message reply of each
user as `replies`. When registrations exist: the question is stored in
`current_question`, each registered user's reply is scored in registration
order, the leaderboard is the score dictionary sorted by score descending,
and the game ends with `running = false`. -/
def start_final_jeopardy (finalQ : Question) (replies : String → String)
    (s : GameState) : GameState × FinalOutcome :=
  if s.final_registered = [] then (s, .noRegistrants)
  else
    let scores' := s.final_registered.foldl (processFinalUser finalQ replies) s.scores
    ({ s with
        current_question := some finalQ
        scores := scores'
        running := false }, .done (sortScoresDesc scores'))

/-- Wrapped per-command outcome of `check_for_commands`. -/
inductive DispatchOutcome where
  | startO (o : StartOutcome)
  | chooseO (o : ChooseOutcome)
  | buzzO (o : BuzzOutcome)
  | answerO (o : AnswerOutcome)
  | ddO (o : DDOutcome)
  | scoreO (leaderboard : List (String × Int))
  | registerO (o : RegisterOutcome)
  | unhandled
deriving DecidableEq

/-- `JeopardyBot.check_for_commands` (lines 295-321): lowercases the message,
splits both the lowercased text (`command`) and the original text
(`command2`) after dropping the leading `!`, and dispatches on the prefix of
the lowercased message, in source order. Note that `handle_answer` and
`handle_daily_double` receive `command2` with the verb still in front.
The injected nondeterminism (`ddRoll`, `now`, `newCats`, `newBoard`) is
threaded through to the handlers that consume it. -/
def check_for_commands (msg_text_tall : String) (user_id : String)
    (ddRoll : Bool) (now : Int) (newCats : List String) (newBoard : List Question)
    (s : GameState) : GameState × DispatchOutcome :=
  let msg_text := strLower msg_text_tall
  let command := splitWs (strDrop msg_text 1)
  let command2 := splitWs (strDrop msg_text_tall 1)
  if strStartsWith msg_text "!startjeopardy" = true then
    let r := handle_start_jeopardy newCats newBoard s
    (r.1, .startO r.2)
  else if strStartsWith msg_text "!choose" = true then
    let r := handle_choose_question command command2 user_id ddRoll s
    (r.1, .chooseO r.2)
  else if strStartsWith msg_text "!buzz" = true then
    let r := handle_buzz user_id now s
    (r.1, .buzzO r.2)
  else if strStartsWith msg_text "!answer" = true then
    let r := handle_answer command2 user_id now s
    (r.1, .answerO r.2)
  else if strStartsWith msg_text "!dailydouble" = true then
    let r := handle_daily_double command2 user_id s
    (r.1, .ddO r.2)
  else if strStartsWith msg_text "!score" = true then
    (s, .scoreO (sortScoresDesc s.scores))
  else if strStartsWith msg_text "!register" = true then
    let r := handle_register user_id s
    (r.1, .registerO r.2)
  else (s, .unhandled)

/-! ### Concrete game runs

A one-tile catalog is enough to drive every handler through the behaviours
the claims speak about. Each state below names the result of one more engine
operation, so each is reachable from `initial_state` by the listed sequence
of operations. -/

/-- A science tile worth 100 with accepted answer "x". -/
def q1 : Question :=
  { category_id := "Sci", points := 100, question := "Q1", answers := ["x"] }

/-- The final-jeopardy question, worth 300, accepted answer "fx". -/
def qF : Question :=
  { category_id := "Fin", points := 300, question := "QF", answers := ["fx"] }

/-- The sampled category list injected into `setup_board`. -/
def cats1 : List String := ["Sci"]

/-- The sampled board injected into `setup_board`. -/
def board1 : List Question := [q1]

/-- After `!startjeopardy`. -/
def gStart : GameState := (handle_start_jeopardy cats1 board1 initial_state).1

/-- After `!choose 100 Sci` with the daily-double roll failing: the tile is
posted and buzzing opens. -/
def gPosted : GameState :=
  (handle_choose_question ["choose", "100", "sci"] ["choose", "100", "Sci"] "u0" false gStart).1

/-- After `!buzz` by u1 at time 0. -/
def gLocked : GameState := (handle_buzz "u1" 0 gPosted).1

/-- After the correct `!answer x` by u1 at time 1. -/
def gAfterCorrect : GameState := (handle_answer ["answer", "x"] "u1" 1 gLocked).1

/-- After `!choose 100 Sci` from `gStart` with the daily-double roll
succeeding: the tile is offered as a daily double. -/
def gDD : GameState :=
  (handle_choose_question ["choose", "100", "sci"] ["choose", "100", "Sci"] "u0" true gStart).1

/-- After `!buzz` by u1 at time 0 during the daily-double offer. -/
def gDDLocked : GameState := (handle_buzz "u1" 0 gDD).1

/-- After the correct `!answer x` by u1 at time 1 on the daily-double tile. -/
def gDDAnswered : GameState := (handle_answer ["answer", "x"] "u1" 1 gDDLocked).1

/-- After `!register` by u1 (score 100) from `gAfterCorrect`. -/
def gRegistered : GameState := (handle_register "u1" gAfterCorrect).1

/-- Latest direct-message text when the user never replied: the bot's own
prompt, which does not start with `!finaljeopardy`. -/
def repNone : String → String := fun _ => "no reply"

/-- After running Final Jeopardy from `gRegistered` with a forfeited reply:
the game has ended (`running = false`) with `current_question` holding the
final question and u1's stale lock still in place. -/
def gFinalDone : GameState := (start_final_jeopardy qF repNone gRegistered).1

/-- After `!register` by u1 from the daily-double game `gDDAnswered`. -/
def gReg2 : GameState := (handle_register "u1" gDDAnswered).1

/-- End of the first game of the daily-double run: Final Jeopardy from
`gReg2` with a forfeited reply. -/
def gEnd2 : GameState := (start_final_jeopardy qF repNone gReg2).1

/-- A second game started by `!startjeopardy` after `gEnd2`. -/
def gGame2 : GameState := (handle_start_jeopardy cats1 board1 gEnd2).1

/-! ### Claim C1 -/

/-- C1: the code violates the claim. After `chooseQuestion` and a correct
in-window answer by the lock holder, the score is credited with the tile's
point value and `current_chooser` becomes the answerer, but `handle_answer`
never removes the tile from the board: the tile is still a member of
`board`, `display_board` renders it as an available `$100` (the `false`
mark), and the very same tile can be chosen again. The tile-removal clause
of the claim fails at this input. -/
theorem c1_tile_not_removed :
    (handle_answer ["answer", "x"] "u1" 1 gLocked).2 = AnswerOutcome.correct ∧
    sget gAfterCorrect.scores "u1" = 100 ∧
    gAfterCorrect.current_chooser = some "u1" ∧
    gAfterCorrect.current_question = none ∧
    q1 ∈ gAfterCorrect.board ∧
    display_marks [q1] gAfterCorrect = [("Sci", [(100, false)])] ∧
    (handle_choose_question ["choose", "100", "sci"] ["choose", "100", "Sci"]
      "u1" false gAfterCorrect).2 = ChooseOutcome.posted := by
  decide

/-! ### Claim C2 -/

/-- C2: counterexample. In the reachable state `gLocked` (startGame, then
chooseQuestion posting a normal tile, then a buzz) there is an active
question, the buzz window is still open (`handle_buzz` never closes it) and
a user has buzzed in — so none of the claim's three admissible cases holds:
the three-way invariant is false on the code. -/
theorem c2_counterexample :
    ¬ (gLocked.current_question = none ∨
       (gLocked.current_question ≠ none ∧ gLocked.buzz_open = true ∧
         gLocked.buzzed_in = none) ∨
       (gLocked.current_question ≠ none ∧ gLocked.buzzed_in ≠ none ∧
         gLocked.buzz_open = false)) := by
  decide

/-- C2 amended: the engine constrains the triple (active question present,
buzz window open, buzzed-in user present) not at all — every one of the
eight combinations is reached by a sequence of engine operations, because
the daily-double branch of `handle_choose_question` leaves the window
closed, `handle_buzz` leaves the window open, a correct `handle_answer`
leaves the buzzed-in user set, and the timed-out `handle_answer` clears only
the lock. The eight states below are each built from `initial_state` by the
operation sequences recorded in their definitions. -/
theorem c2_amended_all_states_reachable :
    (gStart.current_question.isSome, gStart.buzz_open, gStart.buzzed_in.isSome)
      = (false, false, false) ∧
    (gPosted.current_question.isSome, gPosted.buzz_open, gPosted.buzzed_in.isSome)
      = (true, true, false) ∧
    (gLocked.current_question.isSome, gLocked.buzz_open, gLocked.buzzed_in.isSome)
      = (true, true, true) ∧
    (gAfterCorrect.current_question.isSome, gAfterCorrect.buzz_open,
        gAfterCorrect.buzzed_in.isSome)
      = (false, true, true) ∧
    (gDD.current_question.isSome, gDD.buzz_open, gDD.buzzed_in.isSome)
      = (true, false, false) ∧
    (gDDLocked.current_question.isSome, gDDLocked.buzz_open, gDDLocked.buzzed_in.isSome)
      = (true, false, true) ∧
    (gDDAnswered.current_question.isSome, gDDAnswered.buzz_open,
        gDDAnswered.buzzed_in.isSome)
      = (false, false, true) ∧
    ((handle_answer ["answer", "x"] "u1" 30 gAfterCorrect).1.current_question.isSome,
        (handle_answer ["answer", "x"] "u1" 30 gAfterCorrect).1.buzz_open,
        (handle_answer ["answer", "x"] "u1" 30 gAfterCorrect).1.buzzed_in.isSome)
      = (false, true, false) := by
  decide

/-! ### Claim C3 -/

/-- C3: counterexample. `gDD` is the Offered(DailyDouble) state (active
question, window closed, nobody buzzed in), reached by startGame and a
chooseQuestion whose 10% roll succeeded. The claim says a buzz here is
rejected; in the code `handle_buzz` only tests `buzzed_in is None` and
`current_question`, so the buzz is accepted and takes the lock. -/
theorem c3_counterexample :
    gDD.current_question = some q1 ∧
    gDD.buzz_open = false ∧
    gDD.buzzed_in = none ∧
    handle_buzz "u1" 0 gDD =
      ({ gDD with buzzed_in := some "u1", buzzed_in_time := 0 }, BuzzOutcome.locked) := by
  decide

/-! ### Claim C4 -/

/-- C4: the daily-double command can never resolve. The dispatcher passes
`command2` — the split message with the verb still in front — to
`handle_daily_double`, which parses `int(parts[0])`, that is,
`int("dailydouble")`. That always raises, so even the chooser submitting the
documented form `!dailydouble 500 x` (with the correct answer "x") at the
offered daily double is rejected with the invalid-wager notice and the
question remains active: no daily double is ever resolved or cleared. -/
theorem c4_daily_double_unusable :
    gDD.current_question = some q1 ∧
    check_for_commands "!dailydouble 500 x" "u0" false 0 [] [] gDD =
      (gDD, DispatchOutcome.ddO DDOutcome.invalidWager) := by
  decide

/-! ### Claim C5 -/

/-- C5: no wager is ever clamped. Because `handle_daily_double` parses the
verb token `"dailydouble"` as the wager, integer parsing fails on every
call: a wager of 5000 (which the claim says is clamped to
max(score, 1000) = 1000 in round 1) and a wager of 0 (which the claim says
is rejected as InvalidWager before clamping) are both rejected by the same
parse failure, with no scoring change; the clamp expression
`max(1, min(wager, max(score, cap)))` is never reached. -/
theorem c5_wager_never_processed :
    gDD.round = 1 ∧
    sget gDD.scores "u0" = 0 ∧
    check_for_commands "!dailydouble 5000 x" "u0" false 0 [] [] gDD =
      (gDD, DispatchOutcome.ddO DDOutcome.invalidWager) ∧
    check_for_commands "!dailydouble 0 x" "u0" false 0 [] [] gDD =
      (gDD, DispatchOutcome.ddO DDOutcome.invalidWager) := by
  decide

/-! ### Claim C6 -/

/-- C6: counterexample. `gFinalDone` is reachable (play one tile, register,
run Final Jeopardy) and has `running = false`; the claim says every engine
operation invoked now is rejected as lifecycle misuse with no state change.
But `handle_answer` never checks `running`: u1's stale lock is still set,
the final question is still stored, so `!answer fx` is accepted and credits
300 points (100 → 400) to u1 after the game has ended. -/
theorem c6_counterexample :
    gFinalDone.running = false ∧
    (handle_answer ["answer", "fx"] "u1" 1 gFinalDone).2 = AnswerOutcome.correct ∧
    sget gFinalDone.scores "u1" = 100 ∧
    sget (handle_answer ["answer", "fx"] "u1" 1 gFinalDone).1.scores "u1" = 400 := by
  decide

/-! ### Claim C7 -/

/-- C7: counterexample. The lock holder u1 answers at time 30, past the
20-second window armed at time 0: the code signals the timeout, clears the
lock and leaves the scores alone — but `current_question` keeps the posted
tile, so the engine does not return to the no-active-question state the
claim requires. -/
theorem c7_counterexample :
    (handle_answer ["answer", "x"] "u1" 30 gLocked).2 = AnswerOutcome.timedOut ∧
    (handle_answer ["answer", "x"] "u1" 30 gLocked).1.buzzed_in = none ∧
    (handle_answer ["answer", "x"] "u1" 30 gLocked).1.scores = gLocked.scores ∧
    (handle_answer ["answer", "x"] "u1" 30 gLocked).1.current_question = some q1 := by
  decide

/-! ### Claim C9 -/

/-- C9: a pair flagged daily-double in an earlier game stays ineligible in
the next game. In the first game the roll flags (Sci, 100); the game is
played out and ends through Final Jeopardy; `handle_start_jeopardy` then
begins a second game — but it resets the unused `daily_doubles` set and
never `daily_double_used`, the set the eligibility test reads. So in the
new game the same tile with a succeeding 10% roll is posted as a normal
question instead of being flagged, contradicting the claim's re-eligibility
clause. -/
theorem c9_daily_double_not_reeligible :
    (handle_choose_question ["choose", "100", "sci"] ["choose", "100", "Sci"]
      "u0" true gStart).2 = ChooseOutcome.dailyDouble ∧
    gGame2.running = true ∧
    gGame2.daily_double_used = [("Sci", 100)] ∧
    (handle_choose_question ["choose", "100", "sci"] ["choose", "100", "Sci"]
      "u2" true gGame2).2 = ChooseOutcome.posted := by
  decide

/-- C3 amended: in the code, a buzz succeeds exactly when nobody holds the
lock and any question is active — the buzz-window flag and the daily-double
status are not consulted. The first caller takes the lock and has the call
timestamp recorded; a buzz while someone holds the lock is rejected and
changes nothing (the holder in particular); a buzz with no active question
is rejected and changes nothing. -/
theorem c3_amended_buzz_characterization (s : GameState) (u : String) (now : Int) :
    (∀ q : Question, s.buzzed_in = none → s.current_question = some q →
      handle_buzz u now s =
        ({ s with buzzed_in := some u, buzzed_in_time := now }, BuzzOutcome.locked)) ∧
    (∀ w : String, s.buzzed_in = some w →
      handle_buzz u now s = (s, BuzzOutcome.rejected)) ∧
    (s.current_question = none →
      handle_buzz u now s = (s, BuzzOutcome.rejected)) := by
  refine ⟨?_, ?_, ?_⟩
  · intro q h1 h2
    simp [handle_buzz, h1, h2]
  · intro w h1
    simp [handle_buzz, h1]
  · intro h2
    simp [handle_buzz, h2]

/-- C3 amended, witness: concrete instance at the daily-double offer `gDD`
with its window closed — the buzz is accepted and the stamped state is as
the amended claim describes. -/
theorem c3_amended_witness :
    handle_buzz "u2" 5 gDD =
      ({ gDD with buzzed_in := some "u2", buzzed_in_time := 5 }, BuzzOutcome.locked) :=
  (c3_amended_buzz_characterization gDD "u2" 5).1 q1 (by decide) (by decide)

/-- C7 amended: an `answer` by the lock holder after the 20-second window
signals the timeout and clears the lock, with no score change — but the
active question is left in place: the engine does not return to the
no-active-question state. The result state differs from the input state in
the `buzzed_in` field alone. -/
theorem c7_amended_timeout (s : GameState) (c2 : List String) (u : String)
    (now : Int) (hb : s.buzzed_in = some u) (ht : now - s.buzzed_in_time > 20) :
    handle_answer c2 u now s = ({ s with buzzed_in := none }, AnswerOutcome.timedOut) := by
  simp [handle_answer, hb, ht]

/-- C7 amended, witness: u1 holds the lock of `gLocked` (stamped at time 0)
and answers at time 30. -/
theorem c7_amended_witness :
    handle_answer ["answer", "x"] "u1" 30 gLocked =
      ({ gLocked with buzzed_in := none }, AnswerOutcome.timedOut) :=
  c7_amended_timeout gLocked ["answer", "x"] "u1" 30 (by decide) (by decide)

/-- A handler ignores the `running` flag: run on a state with `running`
forced to any value, it returns the same outcome and the same state except
that the forced `running` value is carried through — so the handler neither
consults nor changes `running`. -/
def ignoresRunning {O : Type} (H : GameState → GameState × O) : Prop :=
  ∀ (s : GameState) (b : Bool),
    H { s with running := b } = ({ (H s).1 with running := b }, (H s).2)

/-- `handle_buzz` never reads the `running` flag. -/
lemma handle_buzz_ignoresRunning (u : String) (now : Int) :
    ignoresRunning (handle_buzz u now) := by
  intro s b
  obtain ⟨run, rnd, sc, fr, fa, au, dd, ddu, bi, bt, cq, cc, cats, brd, bz, bo⟩ := s
  simp only [handle_buzz]
  split_ifs <;> rfl

/-- `handle_answer` never reads the `running` flag. -/
lemma handle_answer_ignoresRunning (c2 : List String) (u : String) (now : Int) :
    ignoresRunning (handle_answer c2 u now) := by
  intro s b
  obtain ⟨run, rnd, sc, fr, fa, au, dd, ddu, bi, bt, cq, cc, cats, brd, bz, bo⟩ := s
  cases cq with
  | none =>
    simp only [handle_answer]
    split_ifs <;> rfl
  | some q =>
    simp only [handle_answer]
    split_ifs <;> rfl

/-- `handle_daily_double` never reads the `running` flag. -/
lemma handle_daily_double_ignoresRunning (parts : List String) (u : String) :
    ignoresRunning (handle_daily_double parts u) := by
  intro s b
  obtain ⟨run, rnd, sc, fr, fa, au, dd, ddu, bi, bt, cq, cc, cats, brd, bz, bo⟩ := s
  cases cq with
  | none => rfl
  | some q =>
    simp only [handle_daily_double]
    cases hw : strToInt (parts.getD 0 "") with
    | none => split_ifs <;> simp [hw]
    | some w => split_ifs <;> simp [hw]

/-- `handle_register` never reads the `running` flag. -/
lemma handle_register_ignoresRunning (u : String) :
    ignoresRunning (handle_register u) := by
  intro s b
  obtain ⟨run, rnd, sc, fr, fa, au, dd, ddu, bi, bt, cq, cc, cats, brd, bz, bo⟩ := s
  simp only [handle_register]
  split_ifs <;> rfl

/-- C6 amended: only `chooseQuestion` validates the running phase — when no
game is running it is rejected with the no-game notice and no state change.
The other operations (`buzz`, `answer`, `dailyDoubleAnswer`, `registerFinal`)
never consult the `running` flag at all: each behaves identically, in
outcome and in every other state field, whether or not a game is running. -/
theorem c6_amended_running_checks (s : GameState)
    (command command2 parts : List String) (u : String) (ddRoll : Bool)
    (now : Int) :
    (s.running = false →
      handle_choose_question command command2 u ddRoll s = (s, ChooseOutcome.notRunning)) ∧
    ignoresRunning (handle_buzz u now) ∧
    ignoresRunning (handle_answer command2 u now) ∧
    ignoresRunning (handle_daily_double parts u) ∧
    ignoresRunning (handle_register u) := by
  exact ⟨fun h => by simp [handle_choose_question, h],
    handle_buzz_ignoresRunning u now,
    handle_answer_ignoresRunning command2 u now,
    handle_daily_double_ignoresRunning parts u,
    handle_register_ignoresRunning u⟩

/-- C6 amended, witness: `!choose` before any game has started is rejected
with the not-running notice, and a buzz on the posted-question state behaves
the same with `running` forced to `false` as it does normally. -/
theorem c6_amended_witness :
    handle_choose_question ["choose", "100", "sci"] ["choose", "100", "Sci"]
      "u9" false initial_state = (initial_state, ChooseOutcome.notRunning) ∧
    handle_buzz "u9" 7 { gPosted with running := false } =
      ({ (handle_buzz "u9" 7 gPosted).1 with running := false },
        (handle_buzz "u9" 7 gPosted).2) := by
  have h := c6_amended_running_checks initial_state ["choose", "100", "sci"]
    ["choose", "100", "Sci"] [] "u9" false 7
  exact ⟨h.1 rfl, h.2.1 gPosted false⟩

/-- Inversion of the correct-answer branch of `handle_answer`: a `correct`
outcome can only come from the branch where the caller holds the lock and
the stored question accepts the lowercased answer text, and then the result
state is the input state with the score credited, the chooser set and the
question cleared — `buzzed_in` in particular is untouched. -/
lemma handle_answer_correct_inv (c2 : List String) (u : String) (now : Int)
    (s : GameState) (h : (handle_answer c2 u now s).2 = AnswerOutcome.correct) :
    s.buzzed_in = some u ∧
    ∃ q : Question, s.current_question = some q ∧
      strLower (joinWords (c2.drop 1)) ∈ q.answers.map strLower ∧
      handle_answer c2 u now s =
        ({ s with
            scores := supdate (ssetdefault s.scores u) u q.points
            current_chooser := some u
            current_question := none }, AnswerOutcome.correct) := by
  unfold handle_answer at h ⊢
  split at h
  next h1 => simp at h
  next h1 =>
    split at h
    next h2 => simp at h
    next h2 =>
      split at h
      next hq => simp at h
      next q hq =>
        rw [hq]
        dsimp only at h ⊢
        have h1' : s.buzzed_in = some u := not_not.mp h1
        split at h
        next h3 =>
          refine ⟨h1', q, rfl, h3, ?_⟩
          split_ifs
          rfl
        next h3 => simp at h

/-! ### Claim C10 -/

/-- C10: confirmed. After any correct answer by u (an operation that leaves
`buzzed_in = some u`, since only the incorrect and timeout branches clear
it), posting the next chosen question qn resets the buzz list and opens the
buzz window but leaves `buzzed_in` untouched. Consequently every subsequent
`buzz` by every user v is rejected with no state change, while u — still
holding the stale lock — passes the turn guard of `answer` without buzzing:
within 20 seconds of the stale lock timestamp, a correct answer text for qn
is accepted outright. -/
theorem c10_stale_lock (s : GameState) (qn : Question) (u v : String)
    (c2 c2n : List String) (now now2 : Int)
    (hcorrect : (handle_answer c2 u now s).2 = AnswerOutcome.correct) :
    post_question qn (handle_answer c2 u now s).1 =
      { (handle_answer c2 u now s).1 with
          current_question := some qn, buzzed := [], buzz_open := true } ∧
    (handle_answer c2 u now s).1.buzzed_in = some u ∧
    handle_buzz v now2 (post_question qn (handle_answer c2 u now s).1) =
      (post_question qn (handle_answer c2 u now s).1, BuzzOutcome.rejected) ∧
    (now2 - (handle_answer c2 u now s).1.buzzed_in_time ≤ 20 →
      strLower (joinWords (c2n.drop 1)) ∈ qn.answers.map strLower →
      (handle_answer c2n u now2 (post_question qn (handle_answer c2 u now s).1)).2 =
        AnswerOutcome.correct) := by
  obtain ⟨hbz, q, hq, hmem, hres⟩ := handle_answer_correct_inv c2 u now s hcorrect
  rw [hres]
  refine ⟨rfl, hbz, ?_, ?_⟩
  · simp [handle_buzz, post_question, hbz]
  · intro ht hmem2
    dsimp only at ht
    simp only [List.mem_map, List.drop_one] at hmem2
    simp [handle_answer, post_question, hbz, hmem2, not_lt.mpr ht]

/-- C10, witness: u1 answered the first tile correctly at time 1; the same
tile is posted again, u2's buzz is rejected, and u1's direct `!answer x` at
time 2 is accepted without a buzz. -/
theorem c10_stale_lock_witness :
    handle_buzz "u2" 2 (post_question q1 gAfterCorrect) =
      (post_question q1 gAfterCorrect, BuzzOutcome.rejected) ∧
    (handle_answer ["answer", "x"] "u1" 2 (post_question q1 gAfterCorrect)).2 =
      AnswerOutcome.correct := by
  have h := c10_stale_lock gLocked q1 "u1" "u2" ["answer", "x"] ["answer", "x"]
    1 2 (by decide)
  exact ⟨h.2.2.1, h.2.2.2 (by decide) (by decide)⟩

/-! ### Claim C8 -/

/-- Updating one key leaves every other key's value unchanged. -/
lemma sget_supdate_ne (scores : List (String × Int)) (uid : String) (d : Int)
    (v : String) (hv : v ≠ uid) : sget (supdate scores uid d) v = sget scores v := by
  induction scores with
  | nil => rfl
  | cons p ps ih =>
    by_cases hp : p.1 = uid
    · simp [supdate, hp, sget, Ne.symm hv]
    · simp [supdate, hp, sget]
      by_cases hpv : p.1 = v
      · simp [hpv]
      · simp [hpv, ih]

/-- Updating a value changes no key set. -/
lemma smem_supdate (scores : List (String × Int)) (uid : String) (d : Int)
    (v : String) : smem (supdate scores uid d) v = smem scores v := by
  induction scores with
  | nil => rfl
  | cons p ps ih =>
    by_cases hp : p.1 = uid
    · simp [supdate, hp, smem]
    · simp [supdate, hp, smem, ih]

/-- Reading back an updated key: the delta lands exactly when the key was
present. -/
lemma sget_supdate_eq (l : List (String × Int)) (u : String) (d : Int) :
    sget (supdate l u d) u = if smem l u then sget l u + d else sget l u := by
  induction l with
  | nil => simp [supdate, smem]
  | cons p ps ih =>
    by_cases hp : p.1 = u
    · simp [supdate, hp, sget, smem]
    · simp [supdate, hp, sget, smem, ih]

/-- `sget_supdate_eq` specialised to a present key. -/
lemma sget_supdate_self (scores : List (String × Int)) (uid : String) (d : Int)
    (hm : smem scores uid = true) :
    sget (supdate scores uid d) uid = sget scores uid + d := by
  rw [sget_supdate_eq, if_pos hm]

/-- Scoring one registered user touches no other user's score. -/
lemma processFinalUser_sget_ne (fq : Question) (rp : String → String)
    (scores : List (String × Int)) (x v : String) (hv : v ≠ x) :
    sget (processFinalUser fq rp scores x) v = sget scores v := by
  unfold processFinalUser
  cases hp : finalParse (rp x) with
  | none => rfl
  | some p =>
    obtain ⟨w, a⟩ := p
    dsimp only
    split_ifs <;> exact sget_supdate_ne _ _ _ _ hv

/-- Scoring one registered user changes no key set. -/
lemma processFinalUser_smem (fq : Question) (rp : String → String)
    (scores : List (String × Int)) (x v : String) :
    smem (processFinalUser fq rp scores x) v = smem scores v := by
  unfold processFinalUser
  cases hp : finalParse (rp x) with
  | none => rfl
  | some p =>
    obtain ⟨w, a⟩ := p
    dsimp only
    split_ifs <;> exact smem_supdate _ _ _ _

/-- The effect of scoring user x on x's own entry depends on the ledger only
through x's value and presence. -/
lemma processFinalUser_sget_self_congr (fq : Question) (rp : String → String)
    (a b : List (String × Int)) (x : String)
    (h1 : sget a x = sget b x) (h2 : smem a x = smem b x) :
    sget (processFinalUser fq rp a x) x = sget (processFinalUser fq rp b x) x := by
  unfold processFinalUser
  cases hp : finalParse (rp x) with
  | none => exact h1
  | some p =>
    obtain ⟨w, ans⟩ := p
    dsimp only
    rw [h1]
    split_ifs <;> rw [sget_supdate_eq, sget_supdate_eq, h1, h2]

/-- The scoring loop leaves the score of a user not in the list unchanged. -/
lemma foldl_final_sget_not_mem (fq : Question) (rp : String → String)
    (l : List String) (scores : List (String × Int)) (u : String) (hu : u ∉ l) :
    sget (l.foldl (processFinalUser fq rp) scores) u = sget scores u := by
  induction l generalizing scores with
  | nil => rfl
  | cons x xs ih =>
    simp only [List.foldl_cons]
    have hx : u ≠ x := fun h => hu (by simp [h])
    rw [ih _ fun h => hu (List.mem_cons_of_mem _ h),
      processFinalUser_sget_ne fq rp scores x u hx]

/-- The scoring loop changes no key set. -/
lemma foldl_final_smem (fq : Question) (rp : String → String)
    (l : List String) (scores : List (String × Int)) (u : String) :
    smem (l.foldl (processFinalUser fq rp) scores) u = smem scores u := by
  induction l generalizing scores with
  | nil => rfl
  | cons x xs ih =>
    simp only [List.foldl_cons]
    rw [ih, processFinalUser_smem]

/-- For a duplicate-free registration list, the loop's effect on one
registered user's score is exactly one application of the per-user step to
the original ledger. -/
lemma foldl_final_sget_mem (fq : Question) (rp : String → String)
    (l : List String) (scores : List (String × Int)) (u : String)
    (hu : u ∈ l) (hnd : l.Nodup) :
    sget (l.foldl (processFinalUser fq rp) scores) u =
      sget (processFinalUser fq rp scores u) u := by
  induction l generalizing scores with
  | nil => cases hu
  | cons x xs ih =>
    simp only [List.foldl_cons]
    rcases List.mem_cons.mp hu with h | h
    · subst h
      exact foldl_final_sget_not_mem fq rp xs _ u (List.nodup_cons.mp hnd).1
    · have hx : u ≠ x := by
        rintro rfl
        exact (List.nodup_cons.mp hnd).1 h
      rw [ih _ h (List.nodup_cons.mp hnd).2]
      exact processFinalUser_sget_self_congr fq rp _ scores u
        (processFinalUser_sget_ne fq rp scores x u hx)
        (processFinalUser_smem fq rp scores x u)

/-- Membership in the insertion result. -/
lemma mem_insertScoreDesc (x z : String × Int) (l : List (String × Int))
    (h : z ∈ insertScoreDesc x l) : z = x ∨ z ∈ l := by
  induction l with
  | nil =>
    simp only [insertScoreDesc, List.mem_singleton] at h
    exact Or.inl h
  | cons y ys ih =>
    unfold insertScoreDesc at h
    split_ifs at h with hcmp
    · rcases List.mem_cons.mp h with h | h
      · exact Or.inr (by simp [h])
      · rcases ih h with h | h
        · exact Or.inl h
        · exact Or.inr (List.mem_cons_of_mem _ h)
    · rcases List.mem_cons.mp h with h | h
      · exact Or.inl h
      · exact Or.inr h

/-- Inserting into a descending list keeps it descending. -/
lemma pairwise_insertScoreDesc (x : String × Int) (l : List (String × Int))
    (hl : l.Pairwise fun a b => a.2 ≥ b.2) :
    (insertScoreDesc x l).Pairwise fun a b => a.2 ≥ b.2 := by
  induction l with
  | nil => simp [insertScoreDesc]
  | cons y ys ih =>
    unfold insertScoreDesc
    rcases List.pairwise_cons.mp hl with ⟨hy, hys⟩
    split_ifs with hcmp
    · refine List.pairwise_cons.mpr ⟨?_, ih hys⟩
      intro z hz
      rcases mem_insertScoreDesc x z ys hz with h | h
      · subst h
        exact le_of_lt hcmp
      · exact hy z h
    · refine List.pairwise_cons.mpr ⟨?_, hl⟩
      intro z hz
      rcases List.mem_cons.mp hz with h | h
      · subst h
        exact not_lt.mp hcmp
      · exact le_trans (hy z h) (not_lt.mp hcmp)

/-- The published leaderboard is sorted by score, descending. -/
lemma pairwise_sortScoresDesc (l : List (String × Int)) :
    (sortScoresDesc l).Pairwise fun a b => a.2 ≥ b.2 := by
  induction l with
  | nil => simp [sortScoresDesc]
  | cons x xs ih => exact pairwise_insertScoreDesc x _ ih

/-- With at least one registrant, `start_final_jeopardy` runs the scoring
loop, stores the final question, publishes the sorted leaderboard and ends
the game. -/
lemma start_final_run (fq : Question) (rp : String → String) (s : GameState)
    (h : s.final_registered ≠ []) :
    start_final_jeopardy fq rp s =
      ({ s with
          current_question := some fq
          scores := s.final_registered.foldl (processFinalUser fq rp) s.scores
          running := false },
        FinalOutcome.done (sortScoresDesc
          (s.final_registered.foldl (processFinalUser fq rp) s.scores))) := by
  simp [start_final_jeopardy, h]

/-- C8: confirmed. In a Final Jeopardy round that runs (someone registered;
registrations are duplicate-free, as `handle_register` guarantees), for
every registered user: a malformed or absent reply (anything `finalParse`
rejects, including non-positive wagers) changes that user's score by
exactly 0; an accepted wager exceeding the user's current score is clamped
down to that score before being credited or debited, so the user ends at
double their score or at the difference; the published leaderboard is the
score dictionary sorted by score descending; and the game ends with
`running = false`. The clamping clause carries the `smem` presence
hypothesis under which the source's `scores[uid] += wager` does not raise. -/
theorem c8_final_jeopardy (s : GameState) (fq : Question) (rp : String → String)
    (hne : s.final_registered ≠ []) (hnd : s.final_registered.Nodup) :
    (∀ u ∈ s.final_registered, finalParse (rp u) = none →
      sget (start_final_jeopardy fq rp s).1.scores u = sget s.scores u) ∧
    (∀ u ∈ s.final_registered, ∀ w : Int, ∀ a : String,
      finalParse (rp u) = some (w, a) → w > sget s.scores u →
      smem s.scores u = true →
      sget (start_final_jeopardy fq rp s).1.scores u =
        sget s.scores u +
          (if a ∈ fq.answers.map strLower then sget s.scores u
           else -sget s.scores u)) ∧
    (start_final_jeopardy fq rp s).2 =
      FinalOutcome.done (sortScoresDesc (start_final_jeopardy fq rp s).1.scores) ∧
    ((sortScoresDesc (start_final_jeopardy fq rp s).1.scores).Pairwise
      fun a b => a.2 ≥ b.2) ∧
    (start_final_jeopardy fq rp s).1.running = false := by
  rw [start_final_run fq rp s hne]
  dsimp only
  refine ⟨?_, ?_, rfl, pairwise_sortScoresDesc _, rfl⟩
  · intro u hu hparse
    rw [foldl_final_sget_mem fq rp _ _ u hu hnd]
    unfold processFinalUser
    rw [hparse]
  · intro u hu w a hparse hgt hm
    rw [foldl_final_sget_mem fq rp _ _ u hu hnd]
    unfold processFinalUser
    rw [hparse]
    dsimp only
    rw [if_pos hgt]
    split_ifs with hc
    · rw [sget_supdate_eq, if_pos hm]
    · rw [sget_supdate_eq, if_pos hm]

/-- A reply function where every user answered `!finaljeopardy 500 fx`. -/
def repW : String → String := fun _ => "!finaljeopardy 500 fx"

/-- C8, witness: u1 (score 100) wagers 500 on the correct answer; the wager
is clamped to 100, u1 ends at 200, and the game is over. -/
theorem c8_final_jeopardy_witness :
    sget (start_final_jeopardy qF repW gRegistered).1.scores "u1" = 200 ∧
    (start_final_jeopardy qF repW gRegistered).1.running = false := by
  have h := c8_final_jeopardy gRegistered qF repW (by decide) (by decide)
  have h2 := h.2.1 "u1" (by decide) 500 "fx" (by decide) (by decide) (by decide)
  constructor
  · rw [h2]
    decide
  · exact h.2.2.2.2
